import Mathlib

/-!
# Verification of the charts-plugin tile cache, tile geometry and MBTiles store

Shallow embedding of the SignalK charts-plugin core (TypeScript sources
src/chartDownloader.ts, src/chartDownloaderMBTilesHelpers.ts and the tile
helper module) into Lean 4, together with theorems settling the spec claims
about it.

Conventions of the embedding:
* JavaScript numbers used as tile coordinates are modelled as integers
  (`Int` for x/y, `Nat` for zoom); longitudes/latitudes as rationals `ℚ`.
* Node Buffers are modelled as `List Nat` (byte lists); a Buffer-or-null
  value as `Option (List Nat)`.  An empty Buffer is an object and hence
  truthy in JavaScript, so JS truthiness of a Buffer-or-null corresponds
  exactly to `Option.isSome`.
* The MBTiles handle of a provider is modelled as an association list from
  tiles to byte lists (for the cache layer) and, for the store-level claims,
  as the two relations map/images of the MBTiles schema.
* async/await code is sequential per completed call; the claims below are
  about completed calls, so each operation is a pure state transformer.
* The HTTP fetch and the disk-space probe are environment inputs.
-/

namespace ChartsPlugin

/-- A slippy-map tile address (XYZ convention), from the Tile interface of
the tile helper module. -/
structure Tile where
  x : Int
  y : Int
  z : Nat
deriving DecidableEq, Repr

/-- The TileSource enum of chartDownloader.ts. -/
inductive TileSource where
  | none
  | fetchedFromCache
  | fetchedFromRemote
deriving DecidableEq, Repr

/-- The TileFetchResult interface of chartDownloader.ts: the buffer returned
to the caller together with where it came from. -/
structure TileFetchResult where
  buffer : Option (List Nat)
  source : TileSource
deriving DecidableEq, Repr

/-- The CacheStatistic record of chartDownloader.ts (per-provider counters). -/
structure CacheStatistic where
  requests : Nat
  hits : Nat
  misses : Nat
  failures : Nat
deriving DecidableEq, Repr

/-- Reading the CacheStatistics map: a missing provider key is created with
all-zero counters by getTileFromCacheOrRemote, so reading a missing key is
modelled as the all-zero record. -/
def statsGet : List (String × CacheStatistic) → String → CacheStatistic
  | [], _ => ⟨0, 0, 0, 0⟩
  | (k, v) :: rest, pid => if k = pid then v else statsGet rest pid

/-- Writing the CacheStatistics map (Map.set / in-place mutation of the
retrieved record): replaces the first binding of the key, or appends. -/
def statsSet : List (String × CacheStatistic) → String → CacheStatistic →
    List (String × CacheStatistic)
  | [], pid, v => [(pid, v)]
  | (k, w) :: rest, pid, v =>
    if k = pid then (pid, v) :: rest else (k, w) :: statsSet rest pid v

/-- The provider's MBTiles cache content as observed through
getTileFromMbTiles: an association list read front-to-back. -/
def storeGet : List (Tile × List Nat) → Tile → Option (List Nat)
  | [], _ => none
  | (t, b) :: rest, tile => if t = tile then some b else storeGet rest tile

/-- putTile replaces the row for the tile; with front-to-back reads,
prepending the new binding realises exactly that observable behaviour. -/
def storePut (store : List (Tile × List Nat)) (tile : Tile) (b : List Nat) :
    List (Tile × List Nat) :=
  (tile, b) :: store

/-- The process-wide mutable state of the ChartDownloader class:
CachingDisabled, TilesCached, CacheStatistics, and the provider's MBTiles
cache content. -/
structure DownloaderState where
  cachingDisabled : Bool
  tilesCached : Nat
  stats : List (String × CacheStatistic)
  store : List (Tile × List Nat)
deriving Repr

/-- Environment of one call: what fetchTileFromRemote would return for each
tile, and what hasDiskSpace(chartsPath) reports. -/
structure Env where
  remote : Tile → Option (List Nat)
  hasDiskSpace : Bool

/-- Result of one completed getTileFromCacheOrRemote call: the returned
TileFetchResult, the state after the call, and whether fetchTileFromRemote
was invoked during the call. -/
structure StepResult where
  result : TileFetchResult
  state : DownloaderState
  remoteContacted : Bool

/-- ChartDownloader.cacheTileToMbTiles: writes the buffer to the provider's
MBTiles cache and bumps TilesCached, but only when the buffer is non-null
and CachingDisabled is not set; write errors only log, so the happy path is
the model. -/
def cacheTileToMbTiles (s : DownloaderState) (tile : Tile)
    (buffer : Option (List Nat)) : DownloaderState :=
  match buffer with
  | some b =>
      if s.cachingDisabled then s
      else { s with store := storePut s.store tile b,
                    tilesCached := s.tilesCached + 1 }
  | none => s

/-- ChartDownloader.getTileFromCacheOrRemote (chartDownloader.ts lines
317-363), one completed call.  Steps, exactly as in the source:
stats.requests++; unless overwrite, consult the MBTiles cache and on a hit
return (buffer, FetchedFromCache) with hits++; otherwise call
fetchTileFromRemote; if CachingDisabled is still unset, TilesCached is a
multiple of 1000 and the disk probe fails, latch CachingDisabled; if
CachingDisabled is unset and a buffer was fetched, misses++, await
cacheTileToMbTiles and return (buffer, FetchedFromRemote); in every other
case failures++ and return (null, None). -/
def getTileFromCacheOrRemote (env : Env) (s : DownloaderState)
    (providerId : String) (tile : Tile) (overwrite : Bool) : StepResult :=
  let stats0 := statsGet s.stats providerId
  let stats1 : CacheStatistic := { stats0 with requests := stats0.requests + 1 }
  let cached := if overwrite then Option.none else storeGet s.store tile
  match cached with
  | some buf =>
      let statsHit := statsSet s.stats providerId { stats1 with hits := stats1.hits + 1 }
      { result := { buffer := some buf, source := TileSource.fetchedFromCache }
        state := { s with stats := statsHit }
        remoteContacted := false }
  | none =>
      let buffer := env.remote tile
      let s1 : DownloaderState :=
        if !s.cachingDisabled && s.tilesCached % 1000 == 0 && !env.hasDiskSpace
        then { s with cachingDisabled := true } else s
      if !s1.cachingDisabled && buffer.isSome then
        let s2 := cacheTileToMbTiles s1 tile buffer
        let statsMiss := statsSet s2.stats providerId { stats1 with misses := stats1.misses + 1 }
        { result := { buffer := buffer, source := TileSource.fetchedFromRemote }
          state := { s2 with stats := statsMiss }
          remoteContacted := true }
      else
        let statsFail := statsSet s1.stats providerId { stats1 with failures := stats1.failures + 1 }
        { result := { buffer := Option.none, source := TileSource.none }
          state := { s1 with stats := statsFail }
          remoteContacted := true }

/-- Process start state: CachingDisabled = false, TilesCached = 0, empty
statistics map, and whatever content the on-disk cache already has. -/
def mkInitialState (store : List (Tile × List Nat)) : DownloaderState :=
  { cachingDisabled := false, tilesCached := 0, stats := [], store := store }

/-- One requested call: environment, provider identifier, tile, overwrite
flag. -/
def CacheCall : Type := Env × String × Tile × Bool

/-- A finite sequence of completed getTileFromCacheOrRemote calls. -/
def runCalls (s : DownloaderState) : List CacheCall → DownloaderState
  | [] => s
  | (env, pid, tile, ov) :: rest =>
      runCalls (getTileFromCacheOrRemote env s pid tile ov).state rest

/-- Outcome of the HTTP GET issued by fetchTileFromRemote for one tile URL:
either the request throws (abort on the 5 s timeout, or a network error —
both surface as an exception caught by the try block), or a response
arrives with a success flag (response.ok, true exactly on a 2xx status)
and a body.  Real time is not modelled; a timeout is an httpFailure. -/
inductive FetchOutcome where
  | httpFailure
  | response (ok : Bool) (body : List Nat)
deriving DecidableEq, Repr

/-- ChartDownloader.fetchTileFromRemote (chartDownloader.ts lines 430-464).
If the provider has no remoteUrl, log and return null.  Otherwise issue the
GET (the URL template substitution only builds the string handed to fetch
and cannot affect the returned value, so it is not modelled): on an
exception (timeout or network error) return null; on a non-ok response
return null; on an ok response return Buffer.from(body) — the body is
returned unconditionally, with no emptiness check. -/
def fetchTileFromRemote (remoteUrl : Option String) (outcome : FetchOutcome) :
    Option (List Nat) :=
  match remoteUrl with
  | none => none
  | some _ =>
    match outcome with
    | FetchOutcome.httpFailure => none
    | FetchOutcome.response ok body => if ok then some body else none

/-! ## Lemmas about the statistics map and the store -/

theorem statsGet_statsSet_self (m : List (String × CacheStatistic)) (pid : String)
    (v : CacheStatistic) : statsGet (statsSet m pid v) pid = v := by
  induction m with
  | nil => simp [statsSet, statsGet]
  | cons kv rest ih =>
      by_cases h : kv.1 = pid <;> simp [statsSet, statsGet, h, ih]

theorem statsGet_statsSet_ne (m : List (String × CacheStatistic)) (pid pid' : String)
    (v : CacheStatistic) (h : pid' ≠ pid) :
    statsGet (statsSet m pid v) pid' = statsGet m pid' := by
  induction m with
  | nil => simp [statsSet, statsGet, Ne.symm h]
  | cons kv rest ih =>
      by_cases hk : kv.1 = pid
      · simp [statsSet, statsGet, hk, Ne.symm h]
      · simp [statsSet, statsGet, hk, ih]

theorem storeGet_storePut_self (store : List (Tile × List Nat)) (tile : Tile)
    (b : List Nat) : storeGet (storePut store tile b) tile = some b := by
  simp [storePut, storeGet]

/-! ## Claim C1 -/

/-- Claim C1, as stated, is false on the code: with CachingDisabled set, a
cache miss whose remote fetch DOES return bytes still yields
(buffer = null, source = None) — the fetched bytes are discarded.
Concrete input: empty store, remote returning the byte 1 for every tile,
CachingDisabled already latched. -/
theorem cachingDisabled_still_serves_cex :
    (getTileFromCacheOrRemote ⟨fun _ => some [1], true⟩
        ⟨true, 0, [], []⟩ "p" ⟨0, 0, 0⟩ false).result.buffer = none ∧
    (getTileFromCacheOrRemote ⟨fun _ => some [1], true⟩
        ⟨true, 0, [], []⟩ "p" ⟨0, 0, 0⟩ false).result.source = TileSource.none ∧
    (fun _ : Tile => some [1]) ⟨0, 0, 0⟩ ≠ none := by
  exact ⟨rfl, rfl, by decide⟩

/-- Claim C1 (amended): when CachingDisabled is set, every call that misses
the cache (or has refetch = true) returns (buffer = null, source = None)
and leaves the store unchanged, even when the remote fetch returned a byte
buffer; disabled caching suppresses both the store write and the returned
buffer on the miss path (a cache hit still serves bytes). -/
theorem getTileFromCacheOrRemote_cachingDisabled (env : Env) (s : DownloaderState)
    (pid : String) (tile : Tile) (ov : Bool)
    (hd : s.cachingDisabled = true)
    (hmiss : ov = true ∨ storeGet s.store tile = none) :
    (getTileFromCacheOrRemote env s pid tile ov).result.buffer = none ∧
    (getTileFromCacheOrRemote env s pid tile ov).result.source = TileSource.none ∧
    (getTileFromCacheOrRemote env s pid tile ov).state.store = s.store := by
  have hc : (if ov then Option.none else storeGet s.store tile) = none := by
    rcases hmiss with h | h <;> simp [h]
  simp [getTileFromCacheOrRemote, hc, hd]

/-- Witness for the amended C1 theorem at a concrete input. -/
theorem getTileFromCacheOrRemote_cachingDisabled_witness :
    (⟨true, 0, [], []⟩ : DownloaderState).cachingDisabled = true ∧
    (getTileFromCacheOrRemote ⟨fun _ => some [1], true⟩
        ⟨true, 0, [], []⟩ "p" ⟨0, 0, 0⟩ false).result.buffer = none :=
  ⟨rfl, (getTileFromCacheOrRemote_cachingDisabled ⟨fun _ => some [1], true⟩
      ⟨true, 0, [], []⟩ "p" ⟨0, 0, 0⟩ false rfl (Or.inr rfl)).1⟩

/-! ## Claim C2 -/

/-- Claim C2: on a store without the tile and with caching enabled (flag
unset, disk space available), a first getTileFromCacheOrRemote call with
refetch = false returns the remotely fetched bytes with source
FetchedFromRemote and writes them to the store, and a second call for the
same tile returns the identical bytes with source FetchedFromCache without
contacting the remote. -/
theorem getTileFromCacheOrRemote_missThenHit (env : Env) (s : DownloaderState)
    (pid : String) (tile : Tile) (b : List Nat)
    (hcd : s.cachingDisabled = false) (hdisk : env.hasDiskSpace = true)
    (hstore : storeGet s.store tile = none) (hremote : env.remote tile = some b) :
    (getTileFromCacheOrRemote env s pid tile false).result.buffer = some b ∧
    (getTileFromCacheOrRemote env s pid tile false).result.source =
      TileSource.fetchedFromRemote ∧
    storeGet (getTileFromCacheOrRemote env s pid tile false).state.store tile = some b ∧
    (getTileFromCacheOrRemote env
        (getTileFromCacheOrRemote env s pid tile false).state pid tile false).result.buffer
      = some b ∧
    (getTileFromCacheOrRemote env
        (getTileFromCacheOrRemote env s pid tile false).state pid tile false).result.source
      = TileSource.fetchedFromCache ∧
    (getTileFromCacheOrRemote env
        (getTileFromCacheOrRemote env s pid tile false).state pid tile false).remoteContacted
      = false := by
  simp [getTileFromCacheOrRemote, cacheTileToMbTiles, hcd, hdisk, hstore, hremote,
    storePut, storeGet]

/-- Witness for C2 at a concrete input: empty cache, remote serving [7]. -/
theorem getTileFromCacheOrRemote_missThenHit_witness :
    (mkInitialState []).cachingDisabled = false ∧
    storeGet (mkInitialState []).store ⟨0, 0, 0⟩ = none ∧
    (getTileFromCacheOrRemote ⟨fun _ => some [7], true⟩ (mkInitialState [])
        "osm" ⟨0, 0, 0⟩ false).result.buffer = some [7] :=
  ⟨rfl, rfl, (getTileFromCacheOrRemote_missThenHit ⟨fun _ => some [7], true⟩
      (mkInitialState []) "osm" ⟨0, 0, 0⟩ [7] rfl rfl rfl rfl).1⟩

/-! ## Claim C3 -/

/-- The spec's per-provider statistics invariant. -/
def statOk (c : CacheStatistic) : Prop :=
  c.requests = c.hits + c.misses + c.failures

/-- Pointwise order on the four counters. -/
def statLe (a b : CacheStatistic) : Prop :=
  a.requests ≤ b.requests ∧ a.hits ≤ b.hits ∧ a.misses ≤ b.misses ∧
  a.failures ≤ b.failures

theorem cacheTileToMbTiles_stats (s : DownloaderState) (tile : Tile)
    (buf : Option (List Nat)) : (cacheTileToMbTiles s tile buf).stats = s.stats := by
  cases buf
  · rfl
  · simp only [cacheTileToMbTiles]
    split <;> rfl

/-- One completed call preserves the statistics invariant for every
provider and never decreases any counter. -/
theorem getTile_stats_step (env : Env) (s : DownloaderState) (pid : String)
    (tile : Tile) (ov : Bool) (pid' : String) :
    (statOk (statsGet s.stats pid') →
      statOk (statsGet (getTileFromCacheOrRemote env s pid tile ov).state.stats pid')) ∧
    statLe (statsGet s.stats pid')
      (statsGet (getTileFromCacheOrRemote env s pid tile ov).state.stats pid') := by
  unfold getTileFromCacheOrRemote
  cases hc : (if ov then Option.none else storeGet s.store tile) with
  | some buf =>
      by_cases hp : pid' = pid
      · subst hp
        simp [statsGet_statsSet_self, statOk, statLe]
        omega
      · simp [statsGet_statsSet_ne _ _ _ _ hp, statOk, statLe]
  | none =>
      simp only [hc]
      split <;> split <;>
        (by_cases hp : pid' = pid
         · subst hp
           simp [statsGet_statsSet_self, statOk, statLe, cacheTileToMbTiles_stats]
           try omega
         · simp [statsGet_statsSet_ne _ _ _ _ hp, statOk, statLe,
             cacheTileToMbTiles_stats])

theorem runCalls_append (s : DownloaderState) (l1 l2 : List CacheCall) :
    runCalls s (l1 ++ l2) = runCalls (runCalls s l1) l2 := by
  induction l1 generalizing s with
  | nil => rfl
  | cons c rest ih =>
      obtain ⟨env, pid, tile, ov⟩ := c
      simp [runCalls, ih]

theorem runCalls_statOk (calls : List CacheCall) (s : DownloaderState)
    (h : ∀ q, statOk (statsGet s.stats q)) (pid : String) :
    statOk (statsGet (runCalls s calls).stats pid) := by
  induction calls generalizing s with
  | nil => exact h pid
  | cons c rest ih =>
      obtain ⟨env, p, tile, ov⟩ := c
      exact ih _ (fun q => (getTile_stats_step env s p tile ov q).1 (h q))

/-- Claim C3: starting from process start (empty statistics map, arbitrary
pre-existing store content), after any finite sequence of completed
getTileFromCacheOrRemote calls every provider's statistics satisfy
requests = hits + misses + failures, and extending the sequence by one more
call never decreases any of the four counters. -/
theorem cacheStatistics_invariant (store0 : List (Tile × List Nat))
    (calls : List CacheCall) (pid : String) :
    statOk (statsGet (runCalls (mkInitialState store0) calls).stats pid) ∧
    ∀ c : CacheCall,
      statLe (statsGet (runCalls (mkInitialState store0) calls).stats pid)
        (statsGet (runCalls (mkInitialState store0) (calls ++ [c])).stats pid) := by
  constructor
  · exact runCalls_statOk calls _ (fun q => by simp [mkInitialState, statsGet, statOk]) pid
  · intro c
    obtain ⟨env, p, tile, ov⟩ := c
    rw [runCalls_append]
    simp only [runCalls]
    exact (getTile_stats_step env _ p tile ov pid).2

/-! ## Claim C4 -/

/-- Claim C4, as stated, is false on the code: a call with refetch = true
whose remote fetch fails returns source = None, not FetchedFromRemote, and
the previously cached bytes survive.  Concrete input: remote always
failing, store already holding [5] for the tile. -/
theorem refetch_always_remote_cex :
    (getTileFromCacheOrRemote ⟨fun _ => none, true⟩
        ⟨false, 0, [], [(⟨0, 0, 0⟩, [5])]⟩ "p" ⟨0, 0, 0⟩ true).result.source
      = TileSource.none ∧
    TileSource.none ≠ TileSource.fetchedFromRemote := by
  exact ⟨rfl, by decide⟩

/-- Claim C4 (amended): a call with refetch = true never consults the
cache; when the remote fetch returns bytes and caching is enabled (flag
unset, disk space available) it returns (bytes, FetchedFromRemote) and
overwrites the cached bytes for the tile; when the fetch fails or caching
is disabled it returns (null, None) (see the CachingDisabled theorem). -/
theorem getTileFromCacheOrRemote_refetch (env : Env) (s : DownloaderState)
    (pid : String) (tile : Tile) (b : List Nat)
    (hcd : s.cachingDisabled = false) (hdisk : env.hasDiskSpace = true)
    (hremote : env.remote tile = some b) :
    (getTileFromCacheOrRemote env s pid tile true).result.buffer = some b ∧
    (getTileFromCacheOrRemote env s pid tile true).result.source =
      TileSource.fetchedFromRemote ∧
    storeGet (getTileFromCacheOrRemote env s pid tile true).state.store tile = some b := by
  simp [getTileFromCacheOrRemote, cacheTileToMbTiles, hcd, hdisk, hremote,
    storePut, storeGet]

/-- Witness for the amended C4 theorem: the store holds stale bytes [9],
the remote serves [7]; after the refetch call the store answers [7]. -/
theorem getTileFromCacheOrRemote_refetch_witness :
    (⟨false, 0, [], [(⟨1, 2, 3⟩, [9])]⟩ : DownloaderState).cachingDisabled = false ∧
    storeGet (getTileFromCacheOrRemote ⟨fun _ => some [7], true⟩
        ⟨false, 0, [], [(⟨1, 2, 3⟩, [9])]⟩ "p" ⟨1, 2, 3⟩ true).state.store ⟨1, 2, 3⟩
      = some [7] :=
  ⟨rfl, (getTileFromCacheOrRemote_refetch ⟨fun _ => some [7], true⟩
      ⟨false, 0, [], [(⟨1, 2, 3⟩, [9])]⟩ "p" ⟨1, 2, 3⟩ [7] rfl rfl rfl).2.2⟩

/-! ## Claim C5 -/

/-- Claim C5, as stated, is false on the code: a 2xx response with an EMPTY
body yields Buffer.from of an empty array — a non-null (truthy) empty
buffer — not null; the source performs no emptiness check on the body. -/
theorem fetchTileFromRemote_emptyBody_cex :
    fetchTileFromRemote (some "u") (FetchOutcome.response true []) = some [] ∧
    some ([] : List Nat) ≠ none := by
  exact ⟨rfl, by decide⟩

/-- Claim C5 (amended): fetchTileFromRemote never throws (it is a total
function of the request outcome) and returns null exactly when the
provider has no remote URL, the request times out or fails with a network
error, or the response status is not 2xx; on a 2xx response it returns the
body bytes unconditionally, even when the body is empty. -/
theorem fetchTileFromRemote_spec :
    (∀ (url : Option String) (o : FetchOutcome),
        fetchTileFromRemote url o = none ↔
          url = none ∨ o = FetchOutcome.httpFailure ∨
            ∃ b, o = FetchOutcome.response false b) ∧
    (∀ (u : String) (body : List Nat),
        fetchTileFromRemote (some u) (FetchOutcome.response true body) = some body) := by
  constructor
  · rintro (_ | u) (_ | ⟨ok, body⟩) <;> simp [fetchTileFromRemote]
  · intro u body
    rfl

/-! ## Claim C6 -/

/-- The inclusive integer range [a, b] traversed by a JavaScript
for-loop (for (v = a; v <= b; v++)); empty when b < a. -/
def rangeInt (a b : Int) : List Int :=
  (List.range (b - a + 1).toNat).map (fun i => a + i)

/-- The inner generator processBBox of getTilesForBBox
(chartDownloaderTileHelpers, lines 38-49), parametric in the lon/lat-to-tile
projection lonLatToTileXY (whose slippy-map formula uses transcendental
functions and is therefore kept abstract): for z from 0 to maxZoom —
the loop starts at 0, not at minZoom — destructure
[minX, maxY] = proj(lo1, la1, z) and [maxX, minY] = proj(lo2, la2, z) and
yield every (x, y) of the inclusive rectangle. -/
def processBBoxTiles (proj : ℚ → ℚ → Nat → Int × Int)
    (lo1 la1 lo2 la2 : ℚ) (maxZoom : Nat) : List Tile :=
  (List.range (maxZoom + 1)).flatMap fun z =>
    let p1 := proj lo1 la1 z
    let p2 := proj lo2 la2 z
    (rangeInt p1.1 p2.1).flatMap fun x =>
      (rangeInt p2.2 p1.2).map fun y => ⟨x, y, z⟩

/-- getTilesForBBox (chartDownloaderTileHelpers, lines 28-57): if
minLon > maxLon the bbox crosses the antimeridian and is split into
[minLon, 180] and [-180, maxLon]; note the minZoom parameter is accepted
but never read by the source — the zoom loop of processBBox runs from 0. -/
def getTilesForBBox (proj : ℚ → ℚ → Nat → Int × Int)
    (bbox : ℚ × ℚ × ℚ × ℚ) (minZoom maxZoom : Nat) : List Tile :=
  let minLon := bbox.1
  let minLat := bbox.2.1
  let maxLon := bbox.2.2.1
  let maxLat := bbox.2.2.2
  if minLon > maxLon then
    processBBoxTiles proj minLon minLat 180 maxLat maxZoom ++
    processBBoxTiles proj (-180) minLat maxLon maxLat maxZoom
  else
    processBBoxTiles proj minLon minLat maxLon maxLat maxZoom

/-- The source's lonLatToTileXY evaluated where the latitude argument is 0:
x = floor((lon + 180) / 360 * n) with n = 2^z, and the Mercator term
log(tan(lat·π/180) + 1/cos(lat·π/180)) is exactly 0 (tan 0 = 0, cos 0 = 1,
log 1 = 0 — exact in IEEE doubles as well), so y = floor(n / 2). -/
def lonLatToTileXYLat0 (lon _lat : ℚ) (z : Nat) : Int × Int :=
  (⌊(lon + 180) / 360 * 2 ^ z⌋, ⌊((2 : ℚ) ^ z) / 2⌋)

/-- Claim C6 is violated by the code: getTilesForBBox ignores its minZoom
parameter — processBBox loops z from 0, so for bbox [0, 0, 0, 0] with
minZoom = maxZoom = 1 the tile (z = 0, x = 0, y = 0) is yielded although
its zoom level is below minZoom.  (At these inputs the slippy-map
projection is exact, see lonLatToTileXYLat0.) -/
theorem getTilesForBBox_yields_below_minZoom :
    Tile.mk 0 0 0 ∈ getTilesForBBox lonLatToTileXYLat0 (0, 0, 0, 0) 1 1 ∧
    ¬ (1 ≤ (Tile.mk 0 0 0).z) := by
  constructor
  · have h0 : lonLatToTileXYLat0 0 0 0 = (0, 0) := by
      simp only [lonLatToTileXYLat0]
      norm_num
    have hbb : getTilesForBBox lonLatToTileXYLat0 (0, 0, 0, 0) 1 1
        = processBBoxTiles lonLatToTileXYLat0 0 0 0 0 1 := by
      norm_num [getTilesForBBox]
    rw [hbb]
    simp only [processBBoxTiles, rangeInt, List.mem_flatMap, List.mem_map, List.mem_range]
    exact ⟨0, by norm_num, 0, by simp [h0, rangeInt], 0, by simp [h0, rangeInt], rfl⟩
  · decide


/-! ## Claim C8 -/

/-- A GeoJSON geometry as consumed by normalizeGeoJSONLongitudes: polygon
rings are lists of [lon, lat] positions. -/
inductive Geometry where
  | polygon (rings : List (List (ℚ × ℚ)))
  | multiPolygon (polys : List (List (List (ℚ × ℚ))))
  | otherGeometry
deriving DecidableEq, Repr

/-- normalizeLon (tile helper module): a single conditional ±360 shift. -/
def normalizeLon (lon : ℚ) : ℚ :=
  if lon < -180 then lon + 360
  else if lon > 180 then lon - 360
  else lon

/-- normalizePolygon: apply normalizeLon to the longitude (coord[0]) of
every coordinate of every ring. -/
def normalizePolygon (rings : List (List (ℚ × ℚ))) : List (List (ℚ × ℚ)) :=
  rings.map fun ring => ring.map fun c => (normalizeLon c.1, c.2)

/-- normalizeGeoJSONLongitudes: normalize a Polygon's rings or each polygon
of a MultiPolygon; other geometries pass through unchanged.  This is the
normalization convertFeatureToGeoJSON performs BEFORE handing the feature
to the antimeridian splitter. -/
def normalizeGeoJSONLongitudes : Geometry → Geometry
  | Geometry.polygon rings => Geometry.polygon (normalizePolygon rings)
  | Geometry.multiPolygon polys => Geometry.multiPolygon (polys.map normalizePolygon)
  | Geometry.otherGeometry => Geometry.otherGeometry

/-- All longitudes occurring in a geometry's rings. -/
def ringLons (ring : List (ℚ × ℚ)) : List ℚ := ring.map (fun c => c.1)

/-- All longitudes of a polygon (all rings). -/
def polyLons (rings : List (List (ℚ × ℚ))) : List ℚ := rings.flatMap ringLons

/-- All longitudes of a geometry. -/
def geomLons : Geometry → List ℚ
  | Geometry.polygon rings => polyLons rings
  | Geometry.multiPolygon polys => polys.flatMap polyLons
  | Geometry.otherGeometry => []

/-- Claim C8, as stated, is false on the code: normalizeLon applies at most
one ±360 shift, so the input longitude 541 becomes 181, which still lies
outside [-180, 180]; the polygon below therefore reaches the antimeridian
splitter (and the output collection) with an out-of-range longitude. -/
theorem normalize_single_shift_cex :
    (181 : ℚ) ∈ geomLons (normalizeGeoJSONLongitudes
        (Geometry.polygon [[(541, 0)]])) ∧ ¬ ((181 : ℚ) ≤ 180) := by
  constructor
  · have h : normalizeLon 541 = 181 := by norm_num [normalizeLon]
    simp [normalizeGeoJSONLongitudes, normalizePolygon, geomLons, polyLons, ringLons, h]
  · norm_num

/-- Claim C8 (amended): the pre-split normalization of
convertFeatureToGeoJSON shifts each longitude by at most one full turn
(+360 if below -180, -360 if above 180), so every input longitude within
[-540, 540] is mapped into [-180, 180]; longitudes beyond one wrap remain
outside the interval. -/
theorem normalizeGeoJSONLongitudes_in_range (g : Geometry)
    (h : ∀ l ∈ geomLons g, -540 ≤ l ∧ l ≤ 540) :
    ∀ l ∈ geomLons (normalizeGeoJSONLongitudes g), -180 ≤ l ∧ l ≤ 180 := by
  have hpt : ∀ l : ℚ, -540 ≤ l → l ≤ 540 → -180 ≤ normalizeLon l ∧ normalizeLon l ≤ 180 := by
    intro l h1 h2
    unfold normalizeLon
    split
    · constructor <;> linarith
    · split
      · constructor <;> linarith
      · constructor <;> linarith
  have hmap : ∀ rings, (∀ l ∈ polyLons rings, -540 ≤ l ∧ l ≤ 540) →
      ∀ l ∈ polyLons (normalizePolygon rings), -180 ≤ l ∧ l ≤ 180 := by
    intro rings hr l hl
    simp only [polyLons, normalizePolygon, ringLons, List.mem_flatMap, List.mem_map] at hl
    obtain ⟨ring2, ⟨ring, hring, rfl⟩, hl⟩ := hl
    simp only [List.mem_map] at hl
    obtain ⟨c2, ⟨c, hc, rfl⟩, rfl⟩ := hl
    have : c.1 ∈ polyLons rings := by
      simp only [polyLons, ringLons, List.mem_flatMap, List.mem_map]
      exact ⟨ring, hring, c, hc, rfl⟩
    obtain ⟨h1, h2⟩ := hr _ this
    exact hpt _ h1 h2
  cases g with
  | polygon rings =>
      exact hmap rings h
  | multiPolygon polys =>
      intro l hl
      simp only [geomLons, normalizeGeoJSONLongitudes, List.mem_flatMap, List.mem_map] at hl
      obtain ⟨p2, ⟨p, hp, rfl⟩, hl⟩ := hl
      refine hmap p ?_ l hl
      intro l' hl'
      refine h l' ?_
      simp only [geomLons, List.mem_flatMap]
      exact ⟨p, hp, hl'⟩
  | otherGeometry =>
      intro l hl
      simp [normalizeGeoJSONLongitudes, geomLons] at hl

/-- Witness for the amended C8 theorem: a polygon with longitudes 200 and
-190 (both within one wrap) normalizes to longitudes inside [-180, 180]. -/
theorem normalizeGeoJSONLongitudes_in_range_witness :
    (∀ l ∈ geomLons (Geometry.polygon [[(200, 10), (-190, 20)]]),
      -540 ≤ l ∧ l ≤ 540) ∧
    (∀ l ∈ geomLons (normalizeGeoJSONLongitudes
        (Geometry.polygon [[(200, 10), (-190, 20)]])), -180 ≤ l ∧ l ≤ 180) := by
  have hin : ∀ l ∈ geomLons (Geometry.polygon [[(200, 10), (-190, 20)]]),
      -540 ≤ l ∧ l ≤ 540 := by
    intro l hl
    simp [geomLons, polyLons, ringLons] at hl
    rcases hl with rfl | rfl <;> norm_num
  exact ⟨hin, normalizeGeoJSONLongitudes_in_range _ hin⟩


/-! ## Claim C10 -/

/-- Number.EPSILON of JavaScript, 2^-52, added to a denominator by
pointInRing to avoid division by zero. -/
def jsEpsilon : ℚ := 1 / 2 ^ 52

/-- Math.round of JavaScript: half-up rounding, floor(x + 1/2) (JS rounds
halves toward positive infinity). -/
def jsRound (q : ℚ) : Int := ⌊q + 1 / 2⌋

/-- pointInRing (tile helper module): ray-casting with the loop
for (i = 0, j = n - 1; i < n; j = i++), toggling the inside flag on each
crossing edge.  (Where JS float division by an exact zero denominator would
give an infinity, rational division gives 0; the C10 theorem does not
depend on which boolean results.) -/
def pointInRing (pt : ℚ × ℚ) (ring : List (ℚ × ℚ)) : Bool :=
  let n := ring.length
  (List.range n).foldl
    (fun inside i =>
      let vi := ring.getD i (0, 0)
      let vj := ring.getD (if i = 0 then n - 1 else i - 1) (0, 0)
      let intersect :=
        (decide (vi.2 > pt.2) != decide (vj.2 > pt.2)) &&
        decide (pt.1 < (vj.1 - vi.1) * (pt.2 - vi.2) / (vj.2 - vi.2 + jsEpsilon) + vi.1)
      if intersect then !inside else inside)
    false

/-- A GeoJSON Polygon geometry as destructured by pointInPolygonFeature:
const [outer, ...holes] = geom.coordinates. -/
structure PolygonQ where
  outer : List (ℚ × ℚ)
  holes : List (List (ℚ × ℚ))
deriving Repr

/-- pointInPolygonFeature: inside the outer ring and in no hole. -/
def pointInPolygonFeature (pt : ℚ × ℚ) (poly : PolygonQ) : Bool :=
  if !pointInRing pt poly.outer then false
  else if poly.holes.any (fun hole => pointInRing pt hole) then false
  else true

/-- estimateTilesByBBox (tile helper module, lines 312-322), parametric in
the lon/lat projection: [minX, minY] = proj(minLon, maxLat, z),
[maxX, maxY] = proj(maxLon, minLat, z), then
max(0, maxX - minX + 1) * max(0, maxY - minY + 1). -/
def estimateTilesByBBox (proj : ℚ → ℚ → Nat → Int × Int)
    (bbox : ℚ × ℚ × ℚ × ℚ) (zoom : Nat) : Int :=
  let p1 := proj bbox.1 bbox.2.2.2 zoom
  let p2 := proj bbox.2.2.1 bbox.2.1 zoom
  max 0 (p2.1 - p1.1 + 1) * max 0 (p2.2 - p1.2 + 1)

/-- The S × S grid of cell-centre sample points used by
estimateTilesBySamplingFeature. -/
def samplePoints (bbox : ℚ × ℚ × ℚ × ℚ) (samplesPerSide : Nat) : List (ℚ × ℚ) :=
  let dx := (bbox.2.2.1 - bbox.1) / samplesPerSide
  let dy := (bbox.2.2.2 - bbox.2.1) / samplesPerSide
  (List.range samplesPerSide).flatMap fun (i : Nat) =>
    (List.range samplesPerSide).map fun (j : Nat) =>
      (bbox.1 + ((i : ℚ) + 1 / 2) * dx, bbox.2.1 + ((j : ℚ) + 1 / 2) * dy)

/-- estimateTilesBySamplingFeature (tile helper module, lines 324-356):
return 0 when the bbox tile count is 0, otherwise count the grid cell
centres lying in the polygon and return round(bboxTileCount * inside/total). -/
def estimateTilesBySamplingFeature (proj : ℚ → ℚ → Nat → Int × Int)
    (feature : PolygonQ) (bbox : ℚ × ℚ × ℚ × ℚ) (zoom : Nat)
    (samplesPerSide : Nat) : Int :=
  let bboxTileCount := estimateTilesByBBox proj bbox zoom
  if bboxTileCount = 0 then 0
  else
    let samples := samplePoints bbox samplesPerSide
    let total := samples.length
    let inside := (samples.filter (fun pt => pointInPolygonFeature pt feature)).length
    let fraction := (inside : ℚ) / (total : ℚ)
    jsRound (bboxTileCount * fraction)

/-- Length of an S × S sample grid built by nested range iteration. -/
theorem length_grid {α : Type} (S : Nat) (f : Nat → Nat → α) :
    ((List.range S).flatMap fun i => (List.range S).map fun j => f i j).length = S * S := by
  rw [List.length_flatMap]
  have heq : ((List.range S).map (List.length ∘ fun i => (List.range S).map fun j => f i j))
      = (List.range S).map (fun _ => S) := by
    simp [Function.comp_def]
  rw [heq, List.map_const']
  simp [List.sum_replicate, smul_eq_mul, Nat.mul_comm]

/-- Claim C10: for every projection, polygon feature, bbox, zoom and
samplesPerSide ≥ 1, the sampling estimator lies between 0 and the bbox
estimator, and both estimators are non-negative. -/
theorem estimateTiles_bounds (proj : ℚ → ℚ → Nat → Int × Int)
    (feature : PolygonQ) (bbox : ℚ × ℚ × ℚ × ℚ) (zoom : Nat)
    (samplesPerSide : Nat) (hS : 1 ≤ samplesPerSide) :
    0 ≤ estimateTilesBySamplingFeature proj feature bbox zoom samplesPerSide ∧
    estimateTilesBySamplingFeature proj feature bbox zoom samplesPerSide ≤
      estimateTilesByBBox proj bbox zoom ∧
    0 ≤ estimateTilesByBBox proj bbox zoom := by
  have hB : 0 ≤ estimateTilesByBBox proj bbox zoom := by
    unfold estimateTilesByBBox
    exact mul_nonneg (le_max_left 0 _) (le_max_left 0 _)
  unfold estimateTilesBySamplingFeature
  by_cases h0 : estimateTilesByBBox proj bbox zoom = 0
  · simp [h0, hB]
  · simp only [h0, if_neg, if_false]
    set B := estimateTilesByBBox proj bbox zoom with hBdef
    set samples := samplePoints bbox samplesPerSide with hsamples
    set inside := (samples.filter (fun pt => pointInPolygonFeature pt feature)).length
      with hinside
    have hle : inside ≤ samples.length := List.length_filter_le _ _
    have htotpos : 0 < samples.length := by
      have : samples.length = samplesPerSide * samplesPerSide := by
        rw [hsamples]
        simp only [samplePoints]
        exact length_grid samplesPerSide _
      rw [this]
      exact Nat.mul_pos hS hS
    have hfrac0 : 0 ≤ (inside : ℚ) / (samples.length : ℚ) :=
      div_nonneg (by positivity) (by positivity)
    have hfrac1 : (inside : ℚ) / (samples.length : ℚ) ≤ 1 := by
      rw [div_le_one (by exact_mod_cast htotpos)]
      exact_mod_cast hle
    have hBQ : (0 : ℚ) ≤ (B : ℚ) := by exact_mod_cast hB
    have hprod0 : (0 : ℚ) ≤ (B : ℚ) * ((inside : ℚ) / (samples.length : ℚ)) :=
      mul_nonneg hBQ hfrac0
    have hprod1 : (B : ℚ) * ((inside : ℚ) / (samples.length : ℚ)) ≤ (B : ℚ) :=
      mul_le_of_le_one_right hBQ hfrac1
    refine ⟨?_, ?_, hB⟩
    · rw [jsRound]
      rw [Int.le_floor]
      push_cast
      linarith
    · rw [jsRound]
      rw [Int.floor_le_iff]
      linarith

/-- Witness for the C10 theorem at a concrete input: constant projection,
a triangle feature, the unit bbox, zoom 0, one sample per side. -/
theorem estimateTiles_bounds_witness :
    1 ≤ 1 ∧
    (0 ≤ estimateTilesBySamplingFeature (fun _ _ _ => (0, 0))
        ⟨[(0, 0), (1, 0), (1, 1)], []⟩ (0, 0, 1, 1) 0 1 ∧
     estimateTilesBySamplingFeature (fun _ _ _ => (0, 0))
        ⟨[(0, 0), (1, 0), (1, 1)], []⟩ (0, 0, 1, 1) 0 1 ≤
       estimateTilesByBBox (fun _ _ _ => (0, 0)) (0, 0, 1, 1) 0 ∧
     0 ≤ estimateTilesByBBox (fun _ _ _ => (0, 0)) (0, 0, 1, 1) 0) :=
  ⟨le_refl 1, estimateTiles_bounds (fun _ _ _ => (0, 0))
      ⟨[(0, 0), (1, 0), (1, 1)], []⟩ (0, 0, 1, 1) 0 1 (le_refl 1)⟩


/-! ## MBTiles store model (claims C7 and C9) -/

/-- A row of the MBTiles map relation: map(zoom_level, tile_column,
tile_row, tile_id).  tile_row uses the on-disk TMS convention. -/
structure MapRow where
  zoom_level : Int
  tile_column : Int
  tile_row : Int
  tile_id : Nat
deriving DecidableEq, Repr

/-- A row of the MBTiles images relation: images(tile_id, tile_data). -/
structure ImageRow where
  tile_id : Nat
  tile_data : List Nat
deriving DecidableEq, Repr

/-- An MBTiles database state: its two relations. -/
structure MbStore where
  map : List MapRow
  images : List ImageRow
deriving DecidableEq, Repr

/-- xyzToTmsY / tmsToXyzY of the MBTiles helpers: (1 << z) - 1 - y. -/
def xyzToTmsY (z : Nat) (y : Int) : Int := 2 ^ z - 1 - y

/-- The prepared statement DELETE FROM map WHERE zoom_level = ? AND
tile_column = ? AND tile_row = ?. -/
def deleteMapRowStmt (m : List MapRow) (z x row : Int) : List MapRow :=
  m.filter fun r => !(r.zoom_level == z && r.tile_column == x && r.tile_row == row)

/-- One transaction body of deleteTilesInChunks: run the delete statement
for every tile of the chunk, converting the XYZ y to the TMS row. -/
def deleteChunk (m : List MapRow) (chunk : List Tile) : List MapRow :=
  chunk.foldl (fun acc t => deleteMapRowStmt acc (t.z : Int) t.x (xyzToTmsY t.z t.y)) m

/-- The chunk decomposition performed by the takeChunk loop of
deleteTilesInChunks: chunk i holds tiles[i*chunkSize .. i*chunkSize +
chunkSize).  With chunkSize = 0 takeChunk returns [] at once and the loop
body never runs, so there are no chunks (natural division by 0 is 0). -/
def tileChunks (tiles : List Tile) (chunkSize : Nat) : List (List Tile) :=
  (List.range ((tiles.length + chunkSize - 1) / chunkSize)).map fun i =>
    (tiles.drop (i * chunkSize)).take chunkSize

/-- Result of deleteTilesInChunks: the store, the final running deleted
counter (the number of consumed tiles), and the list of arguments of the
onProgress calls (the counter value after each chunk). -/
structure DeleteResult where
  store : MbStore
  deleted : Nat
  progress : List Nat
deriving DecidableEq, Repr

/-- deleteTilesInChunks (MBTiles helpers, lines 139-167): consume the tile
sequence in chunks of chunkSize; per chunk delete each tile's map rows in
one transaction, add the chunk length to deleted and invoke
onProgress(deleted).  The images relation is untouched. -/
def deleteTilesInChunks (db : MbStore) (tiles : List Tile) (chunkSize : Nat) :
    DeleteResult :=
  let step := (tileChunks tiles chunkSize).foldl
    (fun (acc : List MapRow × Nat × List Nat) chunk =>
      (deleteChunk acc.1 chunk, acc.2.1 + chunk.length,
        acc.2.2 ++ [acc.2.1 + chunk.length]))
    (db.map, 0, [])
  { store := { map := step.1, images := db.images },
    deleted := step.2.1, progress := step.2.2 }

/-- An images row is an orphan when no map row references its tile_id. -/
def isOrphan (m : List MapRow) (r : ImageRow) : Bool :=
  !(m.any fun mr => mr.tile_id == r.tile_id)

/-- purgeOrphanImagesChunk (MBTiles helpers, lines 169-185): DELETE FROM
images WHERE tile_id IN (SELECT tile_id FROM images WHERE tile_id NOT IN
(SELECT tile_id FROM map) LIMIT ?).  The subquery picks the first `limit`
orphan rows; every images row carrying one of those tile_ids is deleted.
The second component is result.changes, the number of deleted rows. -/
def purgeOrphanImagesChunk (db : MbStore) (limit : Nat) : MbStore × Nat :=
  let victims := ((db.images.filter (fun r => isOrphan db.map r)).take limit).map
    (fun r => r.tile_id)
  let images2 := db.images.filter (fun r => !(victims.contains r.tile_id))
  ({ map := db.map, images := images2 }, db.images.length - images2.length)

/-- The while loop of purgeAllOrphanImages, with explicit fuel bounding the
iteration count: every iteration that continues has deleted at least one
images row, so images.length + 1 iterations always suffice (the wrapper
purgeAllOrphanImages passes exactly that; the fuel-exhausted branch is
unreachable from it).  Returns the store, the accumulated total, and the
list of (deleted, total) arguments of the onProgress calls. -/
def purgeLoop (fuel : Nat) (db : MbStore) (chunkSize : Nat) (total : Nat)
    (progress : List (Nat × Nat)) : MbStore × Nat × List (Nat × Nat) :=
  match fuel with
  | 0 => (db, total, progress)
  | fuel + 1 =>
    let step := purgeOrphanImagesChunk db chunkSize
    if step.2 = 0 then (step.1, total, progress)
    else purgeLoop fuel step.1 chunkSize (total + step.2)
      (progress ++ [(step.2, total + step.2)])

/-- purgeAllOrphanImages (MBTiles helpers, lines 187-206): repeat
purgeOrphanImagesChunk until a chunk deletes zero rows. -/
def purgeAllOrphanImages (db : MbStore) (chunkSize : Nat) :
    MbStore × Nat × List (Nat × Nat) :=
  purgeLoop (db.images.length + 1) db chunkSize 0 []

/-- ChartDownloader.deleteCache (chartDownloader.ts lines 250-280), the
parts acting on the store and the deletedTiles counter.  The job resets
deletedTiles to 0 and enters the 'Deleting tiles' phase: deleteTilesInChunks
with chunk size 1000, whose onProgress callback only writes a console line —
the fold below applies that callback, which leaves the counter unchanged.
Then the 'Purging orphaned images' phase: purgeAllOrphanImages with chunk
size 1000, whose onProgress callback does deletedTiles += deleted.  Returns
(final store, deletedTiles at the end of the 'Deleting tiles' phase,
final deletedTiles). -/
def deleteCacheModel (db : MbStore) (tilesInDB : List Tile) : MbStore × Nat × Nat :=
  let r1 := deleteTilesInChunks db tilesInDB 1000
  let deletedTilesPhase1 := r1.progress.foldl (fun deletedTiles _d => deletedTiles) 0
  let r2 := purgeAllOrphanImages r1.store 1000
  let deletedTilesFinal := r2.2.2.foldl (fun deletedTiles p => deletedTiles + p.1)
    deletedTilesPhase1
  (r2.1, deletedTilesPhase1, deletedTilesFinal)

/-! ## Claim C7 -/

/-- Fixture for C7: two map rows at z = 1 — the tiles (x=0, y=0) and
(x=1, y=0), TMS row 1 — sharing the deduplicated image tile_id 7. -/
def mbFixture : MbStore :=
  { map := [⟨1, 0, 1, 7⟩, ⟨1, 1, 1, 7⟩], images := [⟨7, [1]⟩] }

/-- Claim C7 is violated by the code: running deleteCache on a store with
two tiles sharing one image, the 'Deleting tiles' phase deletes both map
rows and fires onProgress with deleted = 2, yet the job's deletedTiles
counter is still 0 at the end of that phase (the callback only logs); the
final counter is 1 — the number of purged orphan images — not the number
of deleted tiles. -/
theorem deleteCache_progress_cex :
    (deleteTilesInChunks mbFixture [⟨0, 0, 1⟩, ⟨1, 0, 1⟩] 1000).progress = [2] ∧
    (deleteCacheModel mbFixture [⟨0, 0, 1⟩, ⟨1, 0, 1⟩]).1.map = [] ∧
    (deleteCacheModel mbFixture [⟨0, 0, 1⟩, ⟨1, 0, 1⟩]).2.1 = 0 ∧
    (deleteCacheModel mbFixture [⟨0, 0, 1⟩, ⟨1, 0, 1⟩]).2.2 = 1 := by
  decide

/-! ## Claim C9 -/

theorem mem_of_deleteMapRowStmt {r : MapRow} {m : List MapRow} {z x row : Int}
    (h : r ∈ deleteMapRowStmt m z x row) : r ∈ m :=
  List.mem_of_mem_filter h

theorem deleteMapRowStmt_removes {r : MapRow} {m : List MapRow} {z x row : Int}
    (h : r ∈ deleteMapRowStmt m z x row) :
    ¬(r.zoom_level = z ∧ r.tile_column = x ∧ r.tile_row = row) := by
  intro hcon
  obtain ⟨h1, h2, h3⟩ := hcon
  have := List.of_mem_filter h
  simp [h1, h2, h3] at this

theorem mem_of_deleteChunk {r : MapRow} {chunk : List Tile} {m : List MapRow}
    (h : r ∈ deleteChunk m chunk) : r ∈ m := by
  induction chunk generalizing m with
  | nil => exact h
  | cons t ts ih => exact mem_of_deleteMapRowStmt (ih h)

theorem deleteChunk_removes {r : MapRow} {chunk : List Tile} {m : List MapRow}
    {t : Tile} (ht : t ∈ chunk) (h : r ∈ deleteChunk m chunk) :
    ¬(r.zoom_level = (t.z : Int) ∧ r.tile_column = t.x ∧
      r.tile_row = xyzToTmsY t.z t.y) := by
  induction chunk generalizing m with
  | nil => cases ht
  | cons u us ih =>
      rcases List.mem_cons.mp ht with rfl | ht'
      · exact deleteMapRowStmt_removes (mem_of_deleteChunk h)
      · exact ih ht' h

theorem mem_of_foldl_deleteChunk {r : MapRow} {chunks : List (List Tile)}
    {m : List MapRow} (h : r ∈ chunks.foldl deleteChunk m) : r ∈ m := by
  induction chunks generalizing m with
  | nil => exact h
  | cons ch chs ih => exact mem_of_deleteChunk (ih h)

theorem foldl_deleteChunk_removes {r : MapRow} {chunks : List (List Tile)}
    {m : List MapRow} {t : Tile} (ht : ∃ ch ∈ chunks, t ∈ ch)
    (h : r ∈ chunks.foldl deleteChunk m) :
    ¬(r.zoom_level = (t.z : Int) ∧ r.tile_column = t.x ∧
      r.tile_row = xyzToTmsY t.z t.y) := by
  induction chunks generalizing m with
  | nil =>
      obtain ⟨ch, hch, _⟩ := ht
      cases hch
  | cons ch chs ih =>
      obtain ⟨ch', hch', ht'⟩ := ht
      rcases List.mem_cons.mp hch' with rfl | hmem
      · exact deleteChunk_removes ht' (mem_of_foldl_deleteChunk h)
      · exact ih ⟨ch', hmem, ht'⟩ h

theorem foldl_triple_fst (chunks : List (List Tile))
    (acc : List MapRow × Nat × List Nat) :
    (chunks.foldl
      (fun (acc : List MapRow × Nat × List Nat) chunk =>
        (deleteChunk acc.1 chunk, acc.2.1 + chunk.length,
          acc.2.2 ++ [acc.2.1 + chunk.length])) acc).1
      = chunks.foldl deleteChunk acc.1 := by
  induction chunks generalizing acc with
  | nil => rfl
  | cons ch chs ih => exact ih _

theorem deleteTilesInChunks_map (db : MbStore) (tiles : List Tile) (c : Nat) :
    (deleteTilesInChunks db tiles c).store.map
      = (tileChunks tiles c).foldl deleteChunk db.map := by
  unfold deleteTilesInChunks
  exact foldl_triple_fst _ _

/-- Every tile of the sequence lands in some chunk (for a positive chunk
size). -/
theorem exists_chunk_of_mem {t : Tile} {tiles : List Tile} {c : Nat}
    (hc : 0 < c) (ht : t ∈ tiles) : ∃ ch ∈ tileChunks tiles c, t ∈ ch := by
  obtain ⟨i, hi, rfl⟩ := List.mem_iff_getElem.mp ht
  refine ⟨(tiles.drop (i / c * c)).take c, ?_, ?_⟩
  · have hq : i / c < (tiles.length + c - 1) / c := by
      have h1 : i + c ≤ tiles.length + c - 1 := by omega
      have h2 : (i + c) / c ≤ (tiles.length + c - 1) / c := Nat.div_le_div_right h1
      rw [Nat.add_div_right i hc] at h2
      omega
    simp only [tileChunks]
    exact List.mem_map.mpr ⟨i / c, List.mem_range.mpr hq, rfl⟩
  · have hqc : i / c * c + i % c = i := by
      rw [Nat.mul_comm (i / c) c]
      exact Nat.div_add_mod i c
    have hmod : i % c < c := Nat.mod_lt i hc
    have hlen : i % c < ((tiles.drop (i / c * c)).take c).length := by
      simp only [List.length_take, List.length_drop]
      omega
    have hkey : ((tiles.drop (i / c * c)).take c).get ⟨i % c, hlen⟩
        = tiles.get ⟨i, hi⟩ := by
      simp only [List.get_eq_getElem]
      rw [List.getElem_take]
      rw [List.getElem_drop]
      congr 1
    have hmem2 : ((tiles.drop (i / c * c)).take c).get ⟨i % c, hlen⟩
        ∈ (tiles.drop (i / c * c)).take c := List.get_mem _ _ hlen
    rw [hkey] at hmem2
    simpa using hmem2

theorem purgeOrphanImagesChunk_map (db : MbStore) (limit : Nat) :
    (purgeOrphanImagesChunk db limit).1.map = db.map := rfl

theorem purgeOrphanImagesChunk_zero (db : MbStore) (limit : Nat) (hl : 0 < limit)
    (h : (purgeOrphanImagesChunk db limit).2 = 0) :
    ∀ r ∈ db.images, isOrphan db.map r = false := by
  by_contra hcon
  push_neg at hcon
  obtain ⟨r, hr, hor⟩ := hcon
  have hor2 : isOrphan db.map r = true := by
    cases hiso : isOrphan db.map r
    · exact absurd hiso hor
    · rfl
  have hmem : r ∈ db.images.filter (fun q => isOrphan db.map q) :=
    List.mem_filter.mpr ⟨hr, hor2⟩
  obtain ⟨o, os, hos⟩ :=
    List.exists_cons_of_ne_nil (List.ne_nil_of_mem hmem)
  have homem : o ∈ db.images.filter (fun q => isOrphan db.map q) := by
    rw [hos]
    exact List.mem_cons_self o os
  have hoimg : o ∈ db.images := List.mem_of_mem_filter homem
  obtain ⟨n, rfl⟩ : ∃ n, limit = n + 1 := ⟨limit - 1, by omega⟩
  have hvict : o.tile_id ∈
      ((db.images.filter (fun q => isOrphan db.map q)).map
        (fun q => q.tile_id)).take (n + 1) := by
    rw [← List.map_take]
    rw [hos, List.take_succ_cons]
    exact List.mem_map.mpr ⟨o, List.mem_cons_self o _, rfl⟩
  have hlt : (db.images.filter (fun q =>
      !(((db.images.filter (fun q2 => isOrphan db.map q2)).take (n + 1)).map
          (fun q2 => q2.tile_id)).contains q.tile_id)).length < db.images.length := by
    rw [List.length_filter_lt_length_iff_exists]
    refine ⟨o, hoimg, ?_⟩
    simp [hvict]
  simp only [purgeOrphanImagesChunk] at h
  omega

theorem purgeLoop_map (fuel : Nat) (db : MbStore) (c total : Nat)
    (prog : List (Nat × Nat)) : (purgeLoop fuel db c total prog).1.map = db.map := by
  induction fuel generalizing db total prog with
  | zero => rfl
  | succ n ih =>
      simp only [purgeLoop]
      split
      · rfl
      · rw [ih]
        rfl

theorem purgeLoop_no_orphans (fuel : Nat) (db : MbStore) (c total : Nat)
    (prog : List (Nat × Nat)) (hc : 0 < c) (hfuel : db.images.length < fuel) :
    ∀ r ∈ (purgeLoop fuel db c total prog).1.images,
      isOrphan (purgeLoop fuel db c total prog).1.map r = false := by
  induction fuel generalizing db total prog with
  | zero => omega
  | succ n ih =>
      simp only [purgeLoop]
      split
      · rename_i hzero
        intro r hr
        have hmem : r ∈ db.images := by
          simp only [purgeOrphanImagesChunk] at hr
          exact List.mem_of_mem_filter hr
        have := purgeOrphanImagesChunk_zero db c hc hzero r hmem
        rw [purgeOrphanImagesChunk_map]
        exact this
      · rename_i hnz
        have hle : (purgeOrphanImagesChunk db c).1.images.length ≤ db.images.length := by
          simp only [purgeOrphanImagesChunk]
          exact List.length_filter_le _ _
        have hlt : (purgeOrphanImagesChunk db c).1.images.length < db.images.length := by
          simp only [purgeOrphanImagesChunk] at hnz ⊢
          omega
        exact ih _ _ _ (by omega)

/-- purgeAllOrphanImages never runs out of fuel (each continuing iteration
deletes at least one images row), so its result contains no orphan images
row (for a positive chunk size). -/
theorem purgeAllOrphanImages_no_orphans (db : MbStore) (c : Nat) (hc : 0 < c) :
    ∀ r ∈ (purgeAllOrphanImages db c).1.images,
      isOrphan (purgeAllOrphanImages db c).1.map r = false :=
  purgeLoop_no_orphans (db.images.length + 1) db c 0 [] hc (Nat.lt_succ_self _)

theorem purgeAllOrphanImages_map (db : MbStore) (c : Nat) :
    (purgeAllOrphanImages db c).1.map = db.map :=
  purgeLoop_map (db.images.length + 1) db c 0 []

/-- Claim C9: for every store and tile sequence containing the tile t (and
positive chunk sizes, as used by deleteCache), running deleteTilesInChunks
and then purgeAllOrphanImages yields a store whose map relation holds no
row for t and whose images relation holds no orphan row: the database no
longer references t. -/
theorem delete_then_purge_removes_tile (db : MbStore) (tiles : List Tile)
    (t : Tile) (c1 c2 : Nat) (hc1 : 0 < c1) (hc2 : 0 < c2) (ht : t ∈ tiles) :
    (∀ r ∈ (purgeAllOrphanImages (deleteTilesInChunks db tiles c1).store c2).1.map,
        ¬(r.zoom_level = (t.z : Int) ∧ r.tile_column = t.x ∧
          r.tile_row = xyzToTmsY t.z t.y)) ∧
    (∀ r ∈ (purgeAllOrphanImages (deleteTilesInChunks db tiles c1).store c2).1.images,
        isOrphan (purgeAllOrphanImages
          (deleteTilesInChunks db tiles c1).store c2).1.map r = false) := by
  constructor
  · intro r hr
    rw [purgeAllOrphanImages_map, deleteTilesInChunks_map] at hr
    exact foldl_deleteChunk_removes (exists_chunk_of_mem hc1 ht) hr
  · exact purgeAllOrphanImages_no_orphans _ _ hc2

/-- Witness for C9 at a concrete store: one map row for the tile
(x=0, y=0, z=1) referencing image 7, chunk sizes 1000. -/
theorem delete_then_purge_removes_tile_witness :
    (0 < 1000) ∧ (Tile.mk 0 0 1 ∈ [Tile.mk 0 0 1]) ∧
    (∀ r ∈ (purgeAllOrphanImages (deleteTilesInChunks
        ⟨[⟨1, 0, 1, 7⟩], [⟨7, [1]⟩]⟩ [Tile.mk 0 0 1] 1000).store 1000).1.map,
      ¬(r.zoom_level = ((Tile.mk 0 0 1).z : Int) ∧
        r.tile_column = (Tile.mk 0 0 1).x ∧
        r.tile_row = xyzToTmsY (Tile.mk 0 0 1).z (Tile.mk 0 0 1).y)) :=
  ⟨by decide, by decide,
    (delete_then_purge_removes_tile ⟨[⟨1, 0, 1, 7⟩], [⟨7, [1]⟩]⟩ [Tile.mk 0 0 1]
      (Tile.mk 0 0 1) 1000 1000 (by decide) (by decide) (by decide)).1⟩


end ChartsPlugin
